import Mathlib

/-!
Verification of the DFS behavioral parser's scoring core.

The numeric model: Python `Decimal` values and floating-point intermediate
results are embedded as exact rationals (`ℚ`) where the computation is
rational, and as real numbers (`ℝ`) where the source calls transcendental
functions (`math.log2`, `math.exp`, `math.sqrt`).  `Decimal.quantize`
with `ROUND_HALF_UP` on the nonnegative values the code feeds it is the
half-up rounding `roundTo` below; Python's `round` agrees with it away
from exact ties, and no statement below depends on tie behavior.
Timestamps are embedded at day granularity as integer day numbers
(day 0 = 1970-01-01, a Thursday), which is the granularity the scoring
code observes through `timedelta.days`.
-/

namespace DFS

/-- Round `x` to `k` decimal places, half away from zero on nonnegative
inputs (`Decimal.quantize(..., ROUND_HALF_UP)`). -/
def roundTo {α : Type*} [LinearOrderedField α] [FloorRing α] (k : ℕ) (x : α) : α :=
  ((round (x * 10 ^ k) : ℤ) : α) / 10 ^ k

/-- `src/models/dfs_entry.py` `DFSEntry`: one normalized contest entry.
`date` is the entry timestamp as an integer day number. -/
structure Entry where
  entry_id : String
  date : ℤ
  sport : String
  contest_type : String
  entry_fee : ℚ
  winnings : ℚ
  points : ℚ
  source : String
  contest_name : Option String
deriving DecidableEq

/-- `DFSEntry.roi`: per-entry return on investment. -/
def Entry.roi (e : Entry) : ℚ :=
  if e.entry_fee = 0 then 0
  else (e.winnings - e.entry_fee) / e.entry_fee * 100

/-- `src/models/persona_score.py` `PersonaScore` (the three stored scores). -/
structure PersonaScore where
  bettor : ℚ
  fantasy : ℚ
  stats_nerd : ℚ
deriving DecidableEq

/-- `PersonaScore.__post_init__`: each score in [0,1] and the sum within
0.001 of 1; constructing a `PersonaScore` raises unless this holds. -/
def validPersonaScore (ps : PersonaScore) : Prop :=
  0 ≤ ps.bettor ∧ ps.bettor ≤ 1 ∧
  0 ≤ ps.fantasy ∧ ps.fantasy ≤ 1 ∧
  0 ≤ ps.stats_nerd ∧ ps.stats_nerd ≤ 1 ∧
  |ps.bettor + ps.fantasy + ps.stats_nerd - 1| ≤ 1 / 1000

instance (ps : PersonaScore) : Decidable (validPersonaScore ps) := by
  unfold validPersonaScore; infer_instance

/-- `PersonaScore.from_raw_scores`: normalize three raw scores.  All-zero
total takes the fixed fallback branch; otherwise bettor and fantasy are the
quotients rounded half-up to 3 decimals and stats_nerd is forced to
`1 - bettor - fantasy`. -/
def from_raw_scores (bettor_raw fantasy_raw stats_nerd_raw : ℚ) : PersonaScore :=
  let total := bettor_raw + fantasy_raw + stats_nerd_raw
  if total = 0 then
    ⟨33 / 100, 33 / 100, 34 / 100⟩
  else
    let bettor_norm := roundTo 3 (bettor_raw / total)
    let fantasy_norm := roundTo 3 (fantasy_raw / total)
    ⟨bettor_norm, fantasy_norm, 1 - bettor_norm - fantasy_norm⟩

/-- The three persona archetype labels. -/
inductive Persona where
  | BETTOR
  | FANTASY
  | STATS_NERD
deriving DecidableEq

/-- Score of a given persona inside a `PersonaScore`. -/
def personaScoreOf (ps : PersonaScore) : Persona → ℚ
  | .BETTOR => ps.bettor
  | .FANTASY => ps.fantasy
  | .STATS_NERD => ps.stats_nerd

/-- One step of Python's `max(..., key=...)`: the running maximum is replaced
only on a strict increase, so earlier elements win exact ties. -/
def pyMaxStep (ps : PersonaScore) (cur next : Persona) : Persona :=
  if personaScoreOf ps cur < personaScoreOf ps next then next else cur

/-- `PersonaScore.primary_persona`: `max` over the score dict, whose
insertion order is BETTOR, FANTASY, STATS_NERD. -/
def primary_persona (ps : PersonaScore) : Persona :=
  [Persona.FANTASY, Persona.STATS_NERD].foldl (pyMaxStep ps) Persona.BETTOR

/-- Argmax with the fixed tie-break priority Bettor > Fantasy > StatsNerd,
written directly from the spec's words (for comparison with
`primary_persona`). -/
def primaryPersonaSpec (ps : PersonaScore) : Persona :=
  if ps.fantasy ≤ ps.bettor ∧ ps.stats_nerd ≤ ps.bettor then .BETTOR
  else if ps.stats_nerd ≤ ps.fantasy then .FANTASY
  else .STATS_NERD

/-- `src/models/pattern_weights.py` `PATTERN_NAMES`: the eight fixed pattern
categories. -/
inductive PatternName where
  | line_movement
  | historical_trends
  | injury_impact
  | weather_factors
  | player_correlations
  | situational_stats
  | live_odds_delta
  | contrarian_plays
deriving DecidableEq

/-- `src/utils/constants.py` `BETTOR_MODIFIERS`. -/
def BETTOR_MODIFIERS : PatternName → ℚ
  | .line_movement => 1.5
  | .historical_trends => 0.9
  | .injury_impact => 1.3
  | .weather_factors => 0.8
  | .player_correlations => 0.7
  | .situational_stats => 1.0
  | .live_odds_delta => 1.4
  | .contrarian_plays => 1.1

/-- `src/utils/constants.py` `FANTASY_MODIFIERS`. -/
def FANTASY_MODIFIERS : PatternName → ℚ
  | .line_movement => 0.8
  | .historical_trends => 1.1
  | .injury_impact => 1.5
  | .weather_factors => 1.0
  | .player_correlations => 1.6
  | .situational_stats => 1.3
  | .live_odds_delta => 0.6
  | .contrarian_plays => 1.4

/-- `src/utils/constants.py` `STATS_NERD_MODIFIERS`. -/
def STATS_NERD_MODIFIERS : PatternName → ℚ
  | .line_movement => 0.7
  | .historical_trends => 1.5
  | .injury_impact => 0.9
  | .weather_factors => 1.3
  | .player_correlations => 1.2
  | .situational_stats => 1.6
  | .live_odds_delta => 0.5
  | .contrarian_plays => 1.3

/-- `src/scoring/weight_mapper.py` `WeightMapper.calculate_weights`:
blend the three modifier vectors by the persona scores. -/
def calculate_weights (persona_scores : PersonaScore) (pattern_name : PatternName) : ℚ :=
  persona_scores.bettor * BETTOR_MODIFIERS pattern_name +
  persona_scores.fantasy * FANTASY_MODIFIERS pattern_name +
  persona_scores.stats_nerd * STATS_NERD_MODIFIERS pattern_name

/-- `src/scoring/persona_detector.py` `PersonaDetector._score_signal`:
linear interpolation of `value` over `(min_val, max_val)`. -/
def score_signal (value min_val max_val : ℚ) : ℚ :=
  if value < min_val then 0
  else if max_val < value then 1
  else if max_val - min_val = 0 then 1
  else (value - min_val) / (max_val - min_val)

/-- `src/scoring/behavioral_scorer.py` `BehavioralScorer._calculate_roi`. -/
def calculate_roi (invested winnings : ℚ) : ℚ :=
  if invested = 0 then 0
  else (winnings - invested) / invested * 100

/-- `BehavioralScorer._calculate_type_percentage`.  Only called on
non-empty batches (`calculate_metrics` returns the empty sentinel first). -/
def calculate_type_percentage (entries : List Entry) (contest_type : String) : ℚ :=
  ((entries.filter (fun e => e.contest_type = contest_type)).length : ℚ) /
    (entries.length : ℚ)

/-- Python truthiness of an optional contest name: `None` and the empty
string are falsy. -/
def pyTruthyName : Option String → Bool
  | none => false
  | some s => !(s == "")

/-- `BehavioralScorer._calculate_multi_entry_rate`: mean group size over
contest-name groups, groups with a falsy name excluded; 1 when no named
group exists.  The model's list of distinct names may order keys
differently from `Counter`, which no computed value depends on. -/
def calculate_multi_entry_rate (entries : List Entry) : ℚ :=
  if entries = [] then 0
  else
    let names := entries.map Entry.contest_name
    let valid_keys := names.dedup.filter pyTruthyName
    if valid_keys = [] then 1
    else ((valid_keys.map (fun n => names.count n)).sum : ℚ) / (valid_keys.length : ℚ)

/-- `BehavioralScorer._calculate_entries_per_week`. -/
def calculate_entries_per_week (entries : List Entry) : ℚ :=
  if entries = [] then 0
  else
    let dates := entries.map Entry.date
    let first_date := dates.foldl min (dates.headD 0)
    let last_date := dates.foldl max (dates.headD 0)
    let weeks : ℚ := max (((last_date - first_date : ℤ) : ℚ) / 7) 1
    roundTo 2 ((entries.length : ℚ) / weeks)

/-- Weekday name of an integer day number (day 0 = Thursday, 1970-01-01). -/
def dayName (d : ℤ) : String :=
  match (d % 7).toNat with
  | 0 => "Thursday"
  | 1 => "Friday"
  | 2 => "Saturday"
  | 3 => "Sunday"
  | 4 => "Monday"
  | 5 => "Tuesday"
  | _ => "Wednesday"

/-- `BehavioralScorer._calculate_most_active_day`: weekday with the highest
count.  `Counter.most_common` breaks exact count ties by insertion order;
the model's key order may differ on such ties, which no theorem states. -/
def calculate_most_active_day (entries : List Entry) : String :=
  let days := entries.map (fun e => dayName e.date)
  match days.dedup with
  | [] => ""
  | d :: ds => ds.foldl (fun best x => if days.count best < days.count x then x else best) d

/-- Most recent entry date; only meaningful on non-empty batches (Python's
`max` raises on an empty sequence, and all callers guard non-emptiness). -/
def mostRecent (entries : List Entry) : ℤ :=
  match entries with
  | [] => 0
  | e :: es => (es.map Entry.date).foldl max e.date

/-- Number of distinct contest-type tags other than `"UNKNOWN"`
(`len([k for k in entries_by_contest_type if k != "UNKNOWN"])`). -/
def distinctKnownTypes (entries : List Entry) : ℕ :=
  ((entries.map Entry.contest_type).dedup.filter (fun t => !(t == "UNKNOWN"))).length

/-- `BehavioralScorer._calculate_confidence`: 0.5·volume + 0.3·recency +
0.2·diversity, rounded to 4 decimals.  `days_old` is the signed day
difference; the source does not clamp it to be nonnegative. -/
def calculate_confidence (reference_date : ℤ) (entries : List Entry) : ℚ :=
  if entries = [] then 0
  else
    let count_score := min ((entries.length : ℚ) / 50) 1
    let days_old : ℤ := reference_date - mostRecent entries
    let recency_factor := max 0 (1 - (days_old : ℚ) / 365)
    let diversity_factor := min ((distinctKnownTypes entries : ℚ) / 4) 1
    roundTo 4 (0.5 * count_score + 0.3 * recency_factor + 0.2 * diversity_factor)

/-- `BehavioralScorer._calculate_sport_diversity`: normalized Shannon
entropy over sport-code frequencies, 0 for at most one distinct sport,
rounded to 4 decimals. -/
noncomputable def calculate_sport_diversity (entries : List Entry) : ℝ :=
  if entries = [] then 0
  else
    let sports := entries.map Entry.sport
    let total : ℝ := (sports.length : ℝ)
    let num_sports := sports.dedup.length
    if num_sports ≤ 1 then 0
    else
      let entropy := (sports.dedup.map (fun s =>
        if 0 < sports.count s then
          -(((sports.count s : ℝ) / total) * Real.logb 2 ((sports.count s : ℝ) / total))
        else 0)).sum
      let max_entropy := Real.logb 2 (num_sports : ℝ)
      roundTo 4 (if 0 < max_entropy then entropy / max_entropy else 0)

/-- `BehavioralScorer._calculate_stake_variance`: coefficient of variation
of the entry fees, 0 for fewer than two entries or zero mean. -/
noncomputable def calculate_stake_variance (entries : List Entry) : ℝ :=
  if entries.length < 2 then 0
  else
    let fees := entries.map (fun e => (e.entry_fee : ℝ))
    let mean := fees.sum / (fees.length : ℝ)
    if mean = 0 then 0
    else
      let variance := (fees.map (fun x => (x - mean) ^ 2)).sum / (fees.length : ℝ)
      roundTo 4 (Real.sqrt variance / mean)

/-- `BehavioralScorer._calculate_recency_score`: mean exponential-decay
weight with 90-day half-life constant, clamped to 1, rounded to 4
decimals.  Elapsed days clamp at 0 for future-dated entries. -/
noncomputable def calculate_recency_score (reference_date : ℤ) (entries : List Entry) : ℝ :=
  if entries = [] then 0
  else
    let total_weight := (entries.map (fun e =>
      Real.exp (-((max 0 (reference_date - e.date) : ℤ) : ℝ) / 90))).sum
    roundTo 4 (min (total_weight / (entries.length : ℝ)) 1)

/-- `Counter(keys)` as an association list from distinct key to count. -/
def countBy (keys : List String) : List (String × ℕ) :=
  keys.dedup.map (fun k => (k, keys.count k))

/-- `src/models/behavioral_metrics.py` `BehavioralMetrics`. -/
structure BehavioralMetrics where
  total_entries : ℕ
  entries_by_sport : List (String × ℕ)
  entries_by_contest_type : List (String × ℕ)
  total_invested : ℚ
  total_winnings : ℚ
  avg_entry_fee : ℚ
  roi_overall : ℚ
  gpp_percentage : ℚ
  cash_percentage : ℚ
  h2h_percentage : ℚ
  multi_entry_rate : ℚ
  sport_diversity : ℝ
  stake_variance : ℝ
  entries_per_week : ℚ
  most_active_day : String
  recency_score : ℝ
  confidence_score : ℚ

/-- `BehavioralMetrics.empty`: the all-zero sentinel. -/
def BehavioralMetrics.empty : BehavioralMetrics where
  total_entries := 0
  entries_by_sport := []
  entries_by_contest_type := []
  total_invested := 0
  total_winnings := 0
  avg_entry_fee := 0
  roi_overall := 0
  gpp_percentage := 0
  cash_percentage := 0
  h2h_percentage := 0
  multi_entry_rate := 0
  sport_diversity := 0
  stake_variance := 0
  entries_per_week := 0
  most_active_day := ""
  recency_score := 0
  confidence_score := 0

/-- `BehavioralScorer.calculate_metrics`: empty batches return the sentinel
immediately; otherwise every metric is computed. -/
noncomputable def calculate_metrics (reference_date : ℤ) (entries : List Entry) :
    BehavioralMetrics :=
  if entries = [] then BehavioralMetrics.empty
  else
    let total_invested := (entries.map Entry.entry_fee).sum
    let total_winnings := (entries.map Entry.winnings).sum
    { total_entries := entries.length
      entries_by_sport := countBy (entries.map Entry.sport)
      entries_by_contest_type := countBy (entries.map Entry.contest_type)
      total_invested := total_invested
      total_winnings := total_winnings
      avg_entry_fee := total_invested / (entries.length : ℚ)
      roi_overall := calculate_roi total_invested total_winnings
      gpp_percentage := calculate_type_percentage entries "GPP"
      cash_percentage := calculate_type_percentage entries "CASH"
      h2h_percentage := calculate_type_percentage entries "H2H"
      multi_entry_rate := calculate_multi_entry_rate entries
      sport_diversity := calculate_sport_diversity entries
      stake_variance := calculate_stake_variance entries
      entries_per_week := calculate_entries_per_week entries
      most_active_day := calculate_most_active_day entries
      recency_score := calculate_recency_score reference_date entries
      confidence_score := calculate_confidence reference_date entries }

/-- A sample entry used to instantiate hypothesised theorems. -/
def sampleEntry : Entry :=
  ⟨"1", 19000, "NFL", "GPP", 10, 25, 0, "DRAFTKINGS", some "Main Slate"⟩

/-! ### Helper lemmas about half-up rounding -/

theorem roundTo_eq_of_floor {α : Type*} [LinearOrderedField α] [FloorRing α]
    (k : ℕ) (x : α) (m : ℤ) (h1 : (m : α) ≤ x * 10 ^ k + 1 / 2)
    (h2 : x * 10 ^ k + 1 / 2 < m + 1) : roundTo k x = (m : α) / 10 ^ k := by
  have : round (x * 10 ^ k) = m := by
    rw [round_eq, Int.floor_eq_iff]
    exact ⟨h1, by exact_mod_cast h2⟩
  rw [roundTo, this]

theorem roundTo_eq_self {α : Type*} [LinearOrderedField α] [FloorRing α]
    (k : ℕ) (x : α) (m : ℤ) (hm : x * 10 ^ k = (m : α)) : roundTo k x = x := by
  have h10 : (10 : α) ^ k ≠ 0 := by positivity
  have : round (x * 10 ^ k) = m := by rw [hm, round_intCast]
  rw [roundTo, this, ← hm, mul_div_assoc, div_self h10, mul_one]

theorem abs_roundTo_sub {α : Type*} [LinearOrderedField α] [FloorRing α] (k : ℕ) (x : α) :
    |roundTo k x - x| ≤ 1 / (2 * 10 ^ k) := by
  have h10 : (0 : α) < 10 ^ k := by positivity
  have hx : roundTo k x - x = (((round (x * 10 ^ k) : ℤ) : α) - x * 10 ^ k) / 10 ^ k := by
    field_simp [roundTo]
    ring
  have h' : |((round (x * 10 ^ k) : ℤ) : α) - x * 10 ^ k| ≤ 1 / 2 := by
    rw [abs_sub_comm]; exact abs_sub_round _
  rw [hx, abs_div, abs_of_pos h10, div_le_div_iff₀ h10 (by positivity)]
  nlinarith [h']

theorem roundTo_nonneg {α : Type*} [LinearOrderedField α] [FloorRing α] (k : ℕ) {x : α}
    (hx : 0 ≤ x) : 0 ≤ roundTo k x := by
  have h10 : (0 : α) < 10 ^ k := by positivity
  have : (0 : ℤ) ≤ round (x * 10 ^ k) := by
    rw [round_eq]
    exact Int.le_floor.mpr (by push_cast; positivity)
  exact div_nonneg (by exact_mod_cast this) h10.le

theorem roundTo_le_one {α : Type*} [LinearOrderedField α] [FloorRing α] (k : ℕ) {x : α}
    (hx : x ≤ 1) : roundTo k x ≤ 1 := by
  have h10 : (0 : α) < 10 ^ k := by positivity
  have h1 : round (x * 10 ^ k) ≤ 10 ^ k := by
    rw [round_eq]
    have h2 : (⌊x * 10 ^ k + 1 / 2⌋ : α) < (((10 ^ k : ℤ) + 1 : ℤ) : α) := by
      have hlt : x * 10 ^ k + 1 / 2 < (10 ^ k : α) + 1 := by nlinarith
      have := lt_of_le_of_lt (Int.floor_le (x * 10 ^ k + 1 / 2)) hlt
      push_cast
      push_cast at this
      linarith
    have h3 : ⌊x * 10 ^ k + 1 / 2⌋ < (10 ^ k : ℤ) + 1 := by exact_mod_cast h2
    omega
  rw [roundTo, div_le_one h10]
  calc ((round (x * 10 ^ k) : ℤ) : α) ≤ ((10 ^ k : ℤ) : α) := by exact_mod_cast h1
    _ = 10 ^ k := by push_cast; ring

/-! ### Claim theorems -/

/-- C3: for every persona score and each of the eight pattern categories,
the mapped weight is the modifier blend
bettor·bettor_mod + fantasy·fantasy_mod + stats_nerd·stats_mod, and a pure
persona reproduces that persona's modifier vector exactly. -/
theorem C3_weight_mapper (ps : PersonaScore) (p : PatternName) :
    calculate_weights ps p =
      ps.bettor * BETTOR_MODIFIERS p + ps.fantasy * FANTASY_MODIFIERS p +
        ps.stats_nerd * STATS_NERD_MODIFIERS p ∧
    (ps.bettor = 1 ∧ ps.fantasy = 0 ∧ ps.stats_nerd = 0 →
      calculate_weights ps p = BETTOR_MODIFIERS p) ∧
    (ps.bettor = 0 ∧ ps.fantasy = 1 ∧ ps.stats_nerd = 0 →
      calculate_weights ps p = FANTASY_MODIFIERS p) ∧
    (ps.bettor = 0 ∧ ps.fantasy = 0 ∧ ps.stats_nerd = 1 →
      calculate_weights ps p = STATS_NERD_MODIFIERS p) := by
  refine ⟨rfl, ?_, ?_, ?_⟩ <;> rintro ⟨h1, h2, h3⟩ <;>
    simp [calculate_weights, h1, h2, h3]

/-- C3 witness: the pure Bettor persona gets the Bettor line-movement
modifier back. -/
theorem C3_weight_mapper_witness :
    ((⟨1, 0, 0⟩ : PersonaScore).bettor = 1 ∧ (⟨1, 0, 0⟩ : PersonaScore).fantasy = 0 ∧
      (⟨1, 0, 0⟩ : PersonaScore).stats_nerd = 0) ∧
    calculate_weights ⟨1, 0, 0⟩ .line_movement = BETTOR_MODIFIERS .line_movement :=
  ⟨⟨rfl, rfl, rfl⟩, (C3_weight_mapper ⟨1, 0, 0⟩ .line_movement).2.1 ⟨rfl, rfl, rfl⟩⟩

/-- C4: the signal-scoring function returns 0 below the range, 1 above it,
the linear interpolation inside a non-degenerate range, 1 inside a
degenerate range, and always lands in [0,1]. -/
theorem C4_score_signal (value min_val max_val : ℚ) (h : min_val ≤ max_val) :
    (value < min_val → score_signal value min_val max_val = 0) ∧
    (max_val < value → score_signal value min_val max_val = 1) ∧
    (min_val ≤ value → value ≤ max_val → min_val < max_val →
      score_signal value min_val max_val = (value - min_val) / (max_val - min_val)) ∧
    (min_val = max_val → min_val ≤ value → value ≤ max_val →
      score_signal value min_val max_val = 1) ∧
    0 ≤ score_signal value min_val max_val ∧ score_signal value min_val max_val ≤ 1 := by
  refine ⟨?_, ?_, ?_, ?_, ?_⟩
  · intro h1; rw [score_signal, if_pos h1]
  · intro h2
    rw [score_signal, if_neg (not_lt.mpr (h.trans h2.le)), if_pos h2]
  · intro h1 h2 h3
    rw [score_signal, if_neg (not_lt.mpr h1), if_neg (not_lt.mpr h2),
      if_neg (sub_ne_zero.mpr h3.ne')]
  · intro he h1 h2
    rw [score_signal, if_neg (not_lt.mpr h1), if_neg (not_lt.mpr h2), if_pos (by rw [he]; ring)]
  · unfold score_signal
    split_ifs with h1 h2 h3
    · norm_num
    · norm_num
    · norm_num
    · have hge : min_val ≤ value := not_lt.mp h1
      have hle : value ≤ max_val := not_lt.mp h2
      have hpos : 0 < max_val - min_val :=
        lt_of_le_of_ne (sub_nonneg.mpr h) (Ne.symm h3)
      exact ⟨div_nonneg (sub_nonneg.mpr hge) hpos.le,
        (div_le_one hpos).mpr (by linarith)⟩

/-- C4 witness: the midpoint of the range (0, 10) interpolates to 1/2. -/
theorem C4_score_signal_witness :
    (0 : ℚ) ≤ 10 ∧ score_signal 5 0 10 = (5 - 0) / (10 - 0) :=
  ⟨by norm_num,
    (C4_score_signal 5 0 10 (by norm_num)).2.2.1 (by norm_num) (by norm_num) (by norm_num)⟩

/-- C5: overall ROI is ((winnings − invested)/invested)·100 with a zero
result (not an error) on zero stake; the per-entry ROI property behaves
identically; and the scorer's roi_overall applies this to the batch
totals. -/
theorem C5_roi (invested winnings : ℚ) (e : Entry) (reference_date : ℤ)
    (a : Entry) (es : List Entry) :
    (invested = 0 → calculate_roi invested winnings = 0) ∧
    (invested ≠ 0 →
      calculate_roi invested winnings = (winnings - invested) / invested * 100) ∧
    (e.entry_fee = 0 → e.roi = 0) ∧
    (e.entry_fee ≠ 0 → e.roi = (e.winnings - e.entry_fee) / e.entry_fee * 100) ∧
    (calculate_metrics reference_date (a :: es)).roi_overall =
      calculate_roi ((a :: es).map Entry.entry_fee).sum ((a :: es).map Entry.winnings).sum := by
  refine ⟨fun h => by simp [calculate_roi, h], fun h => by simp [calculate_roi, h],
    fun h => by simp [Entry.roi, h], fun h => by simp [Entry.roi, h], ?_⟩
  simp [calculate_metrics]

/-- C5 witness: stake 0 with payout 5 gives ROI 0, and stake 10 with
payout 25 gives ROI 150. -/
theorem C5_roi_witness :
    calculate_roi 0 5 = 0 ∧ (10 : ℚ) ≠ 0 ∧ calculate_roi 10 25 = (25 - 10) / 10 * 100 :=
  ⟨(C5_roi 0 5 sampleEntry 0 sampleEntry []).1 rfl, by norm_num,
    (C5_roi 10 25 sampleEntry 0 sampleEntry []).2.1 (by norm_num)⟩

/-- C8: the empty batch returns the empty sentinel metrics, whose counts
and mappings are empty, whose money, percentage, rate and score fields are
all exactly 0, and whose most_active_day is the empty string. -/
theorem C8_empty_batch (reference_date : ℤ) :
    calculate_metrics reference_date [] = BehavioralMetrics.empty ∧
    BehavioralMetrics.empty.total_entries = 0 ∧
    BehavioralMetrics.empty.entries_by_sport = [] ∧
    BehavioralMetrics.empty.entries_by_contest_type = [] ∧
    BehavioralMetrics.empty.total_invested = 0 ∧
    BehavioralMetrics.empty.total_winnings = 0 ∧
    BehavioralMetrics.empty.avg_entry_fee = 0 ∧
    BehavioralMetrics.empty.roi_overall = 0 ∧
    BehavioralMetrics.empty.gpp_percentage = 0 ∧
    BehavioralMetrics.empty.cash_percentage = 0 ∧
    BehavioralMetrics.empty.h2h_percentage = 0 ∧
    BehavioralMetrics.empty.multi_entry_rate = 0 ∧
    BehavioralMetrics.empty.sport_diversity = 0 ∧
    BehavioralMetrics.empty.stake_variance = 0 ∧
    BehavioralMetrics.empty.entries_per_week = 0 ∧
    BehavioralMetrics.empty.most_active_day = "" ∧
    BehavioralMetrics.empty.recency_score = 0 ∧
    BehavioralMetrics.empty.confidence_score = 0 :=
  ⟨by simp [calculate_metrics], rfl, rfl, rfl, rfl, rfl, rfl, rfl, rfl, rfl, rfl, rfl,
    rfl, rfl, rfl, rfl, rfl, rfl⟩

/-- C9: primary_persona is the argmax of the three scores, with exact ties
broken by the fixed priority Bettor > Fantasy > StatsNerd. -/
theorem C9_primary_persona (ps : PersonaScore) :
    primary_persona ps = primaryPersonaSpec ps ∧
    personaScoreOf ps (primary_persona ps) =
      max (max ps.bettor ps.fantasy) ps.stats_nerd := by
  rcases le_or_lt ps.fantasy ps.bettor with h1 | h1
  · rcases le_or_lt ps.stats_nerd ps.bettor with h2 | h2
    · constructor
      · simp [primary_persona, primaryPersonaSpec, pyMaxStep, personaScoreOf,
          not_lt.mpr h1, not_lt.mpr h2, h1, h2]
      · have : primary_persona ps = .BETTOR := by
          simp [primary_persona, pyMaxStep, personaScoreOf, not_lt.mpr h1, not_lt.mpr h2]
        rw [this, personaScoreOf, max_eq_left h1, max_eq_left h2]
    · have h3 : ps.fantasy < ps.stats_nerd := lt_of_le_of_lt h1 h2
      constructor
      · simp [primary_persona, primaryPersonaSpec, pyMaxStep, personaScoreOf,
          not_lt.mpr h1, h2, not_le.mpr h2, not_le.mpr h3]
      · have : primary_persona ps = .STATS_NERD := by
          simp [primary_persona, pyMaxStep, personaScoreOf, not_lt.mpr h1, h2]
        rw [this, personaScoreOf, max_eq_left h1, max_eq_right h2.le]
  · rcases le_or_lt ps.stats_nerd ps.fantasy with h3 | h3
    · constructor
      · simp [primary_persona, primaryPersonaSpec, pyMaxStep, personaScoreOf,
          h1, not_lt.mpr h3, not_le.mpr h1, h3]
      · have : primary_persona ps = .FANTASY := by
          simp [primary_persona, pyMaxStep, personaScoreOf, h1, not_lt.mpr h3]
        rw [this, personaScoreOf, max_eq_right h1.le, max_eq_left h3]
    · constructor
      · simp [primary_persona, primaryPersonaSpec, pyMaxStep, personaScoreOf,
          h1, h3, not_le.mpr h1, not_le.mpr h3]
      · have : primary_persona ps = .STATS_NERD := by
          simp [primary_persona, pyMaxStep, personaScoreOf, h1, h3]
        rw [this, personaScoreOf, max_eq_right h1.le, max_eq_right h3.le]

/-- C1: normalization in the PersonaScore factory.  All-zero raw scores hit
the fixed fallback distribution (0.33, 0.33, 0.34) summing exactly to 1;
otherwise bettor and fantasy are the raw scores divided by the total under
the implementation's 3-decimal half-up rounding, stats_nerd is within
0.001 of its quotient, and the three returned scores sum to 1 (hence
within the 0.001 tolerance). -/
theorem C1_from_raw_scores (b f s : ℚ) (hb : 0 ≤ b) (hf : 0 ≤ f) (hs : 0 ≤ s) :
    (b = 0 ∧ f = 0 ∧ s = 0 →
      from_raw_scores b f s = ⟨33 / 100, 33 / 100, 34 / 100⟩ ∧
      (from_raw_scores b f s).bettor + (from_raw_scores b f s).fantasy +
        (from_raw_scores b f s).stats_nerd = 1) ∧
    (¬(b = 0 ∧ f = 0 ∧ s = 0) →
      (from_raw_scores b f s).bettor = roundTo 3 (b / (b + f + s)) ∧
      (from_raw_scores b f s).fantasy = roundTo 3 (f / (b + f + s)) ∧
      |(from_raw_scores b f s).stats_nerd - s / (b + f + s)| ≤ 1 / 1000 ∧
      (from_raw_scores b f s).bettor + (from_raw_scores b f s).fantasy +
        (from_raw_scores b f s).stats_nerd = 1) := by
  constructor
  · rintro ⟨rfl, rfl, rfl⟩
    refine ⟨by simp [from_raw_scores], ?_⟩
    simp [from_raw_scores]
    norm_num
  · intro hne
    have ht : b + f + s ≠ 0 := fun h0 => hne ⟨by linarith, by linarith, by linarith⟩
    have hfr : from_raw_scores b f s =
        ⟨roundTo 3 (b / (b + f + s)), roundTo 3 (f / (b + f + s)),
          1 - roundTo 3 (b / (b + f + s)) - roundTo 3 (f / (b + f + s))⟩ := by
      simp [from_raw_scores, ht]
    refine ⟨by rw [hfr], by rw [hfr], ?_, by rw [hfr]; ring⟩
    rw [hfr]
    have hsplit : s / (b + f + s) = 1 - b / (b + f + s) - f / (b + f + s) := by
      field_simp
      ring
    have hrb := abs_roundTo_sub 3 (b / (b + f + s))
    have hrf := abs_roundTo_sub 3 (f / (b + f + s))
    have step : (1 - roundTo 3 (b / (b + f + s)) - roundTo 3 (f / (b + f + s))) -
        s / (b + f + s) =
        -(roundTo 3 (b / (b + f + s)) - b / (b + f + s)) +
          -(roundTo 3 (f / (b + f + s)) - f / (b + f + s)) := by
      rw [hsplit]; ring
    rw [PersonaScore.stats_nerd, step]
    calc |-(roundTo 3 (b / (b + f + s)) - b / (b + f + s)) +
          -(roundTo 3 (f / (b + f + s)) - f / (b + f + s))| ≤
        |-(roundTo 3 (b / (b + f + s)) - b / (b + f + s))| +
          |-(roundTo 3 (f / (b + f + s)) - f / (b + f + s))| := abs_add _ _
      _ ≤ 1 / (2 * 10 ^ 3) + 1 / (2 * 10 ^ 3) := by
          rw [abs_neg, abs_neg]
          exact add_le_add hrb hrf
      _ ≤ 1 / 1000 := by norm_num

/-- C1 witness: raws (1, 1, 2) normalize to the rounded quotients with the
third component within tolerance and total exactly 1. -/
theorem C1_from_raw_scores_witness :
    (from_raw_scores 1 1 2).bettor = roundTo 3 (1 / (1 + 1 + 2 : ℚ)) ∧
    (from_raw_scores 1 1 2).fantasy = roundTo 3 (1 / (1 + 1 + 2 : ℚ)) ∧
    |(from_raw_scores 1 1 2).stats_nerd - 2 / (1 + 1 + 2 : ℚ)| ≤ 1 / 1000 ∧
    (from_raw_scores 1 1 2).bettor + (from_raw_scores 1 1 2).fantasy +
      (from_raw_scores 1 1 2).stats_nerd = 1 :=
  (C1_from_raw_scores 1 1 2 (by norm_num) (by norm_num) (by norm_num)).2 (by norm_num)

/-- C10 counterexample: raw scores (1999, 1, 0) make the factory round
bettor to 1.000 and fantasy to 0.001, forcing stats_nerd to −0.001, so the
constructed scores fail the construction-time validation. -/
theorem C10_counterexample :
    (from_raw_scores 1999 1 0).stats_nerd < 0 ∧
    ¬ validPersonaScore (from_raw_scores 1999 1 0) := by
  have e1 : roundTo 3 ((1999 : ℚ) / 2000) = 1 := by
    rw [roundTo_eq_of_floor 3 ((1999 : ℚ) / 2000) 1000 (by norm_num) (by norm_num)]
    norm_num
  have e2 : roundTo 3 ((1 : ℚ) / 2000) = 1 / 1000 := by
    rw [roundTo_eq_of_floor 3 ((1 : ℚ) / 2000) 1 (by norm_num) (by norm_num)]
    norm_num
  have hfr : from_raw_scores 1999 1 0 = ⟨1, 1 / 1000, -(1 / 1000)⟩ := by
    norm_num [from_raw_scores, e1, e2]
  rw [hfr]
  refine ⟨by norm_num, fun hvalid => ?_⟩
  rcases hvalid with ⟨_, _, _, _, h5, _⟩
  norm_num at h5

/-- C10 (amended): for nonnegative raw scores the construction succeeds
whenever the forced third component 1 − bettor − fantasy is nonnegative
(rounding can push it to −0.001, in which case validation raises); the
first two components always lie in [0,1] and the sum is exactly 1. -/
theorem C10_from_raw_scores_valid (b f s : ℚ) (hb : 0 ≤ b) (hf : 0 ≤ f) (hs : 0 ≤ s)
    (h3 : 0 ≤ (from_raw_scores b f s).stats_nerd) :
    validPersonaScore (from_raw_scores b f s) := by
  by_cases ht : b + f + s = 0
  · simp [from_raw_scores, ht, validPersonaScore]
    norm_num
  · have htpos : 0 < b + f + s := lt_of_le_of_ne (by linarith) (Ne.symm ht)
    have hb1 : b / (b + f + s) ≤ 1 := by rw [div_le_one htpos]; linarith
    have hf1 : f / (b + f + s) ≤ 1 := by rw [div_le_one htpos]; linarith
    have rb0 : 0 ≤ roundTo 3 (b / (b + f + s)) :=
      roundTo_nonneg 3 (div_nonneg hb htpos.le)
    have rb1 : roundTo 3 (b / (b + f + s)) ≤ 1 := roundTo_le_one 3 hb1
    have rf0 : 0 ≤ roundTo 3 (f / (b + f + s)) :=
      roundTo_nonneg 3 (div_nonneg hf htpos.le)
    have rf1 : roundTo 3 (f / (b + f + s)) ≤ 1 := roundTo_le_one 3 hf1
    have hfr : from_raw_scores b f s =
        ⟨roundTo 3 (b / (b + f + s)), roundTo 3 (f / (b + f + s)),
          1 - roundTo 3 (b / (b + f + s)) - roundTo 3 (f / (b + f + s))⟩ := by
      simp [from_raw_scores, ht]
    rw [hfr] at h3 ⊢
    refine ⟨rb0, rb1, rf0, rf1, h3, by simp only [PersonaScore.stats_nerd]; linarith, ?_⟩
    have hz : roundTo 3 (b / (b + f + s)) + roundTo 3 (f / (b + f + s)) +
        (1 - roundTo 3 (b / (b + f + s)) - roundTo 3 (f / (b + f + s))) - 1 = 0 := by ring
    simp only [PersonaScore.bettor, PersonaScore.fantasy, PersonaScore.stats_nerd, hz,
      abs_zero]
    norm_num

/-- C10 witness: raws (1, 1, 2) keep the third component nonnegative and
the validation succeeds. -/
theorem C10_from_raw_scores_valid_witness :
    (0 : ℚ) ≤ 1 ∧ (0 : ℚ) ≤ 2 ∧ 0 ≤ (from_raw_scores 1 1 2).stats_nerd ∧
    validPersonaScore (from_raw_scores 1 1 2) := by
  have e1 : roundTo 3 ((1 : ℚ) / 4) = 1 / 4 := roundTo_eq_self 3 _ 250 (by norm_num)
  have hst : 0 ≤ (from_raw_scores 1 1 2).stats_nerd := by
    norm_num [from_raw_scores, e1]
  exact ⟨by norm_num, by norm_num, hst,
    C10_from_raw_scores_valid 1 1 2 (by norm_num) (by norm_num) (by norm_num) hst⟩

/-- An entry dated 3650 days after day 0, used with reference date 0 to
exhibit the unclamped recency factor in the confidence blend. -/
def futureEntry : Entry :=
  ⟨"1", 3650, "NFL", "GPP", 10, 0, 0, "DRAFTKINGS", some "A"⟩

/-- C2 (amended): for a non-empty batch whose most recent entry is not
after the reference date, the confidence score is the fixed blend
0.5·volume + 0.3·recency + 0.2·diversity rounded to 4 decimals and lies in
[0,1].  (Without that hypothesis the blend formula still holds, but the
unclamped recency factor exceeds 1 for future-dated entries and the result
can leave [0,1]; see the counterexample.) -/
theorem C2_confidence (reference_date : ℤ) (entries : List Entry) (h : entries ≠ []) :
    calculate_confidence reference_date entries =
      roundTo 4 (0.5 * min ((entries.length : ℚ) / 50) 1 +
        0.3 * max 0 (1 - ((reference_date - mostRecent entries : ℤ) : ℚ) / 365) +
        0.2 * min ((distinctKnownTypes entries : ℚ) / 4) 1) ∧
    (mostRecent entries ≤ reference_date →
      0 ≤ calculate_confidence reference_date entries ∧
      calculate_confidence reference_date entries ≤ 1) := by
  have heq : calculate_confidence reference_date entries =
      roundTo 4 (0.5 * min ((entries.length : ℚ) / 50) 1 +
        0.3 * max 0 (1 - ((reference_date - mostRecent entries : ℤ) : ℚ) / 365) +
        0.2 * min ((distinctKnownTypes entries : ℚ) / 4) 1) := by
    unfold calculate_confidence
    rw [if_neg h]
  refine ⟨heq, fun hpast => ?_⟩
  have hc0 : 0 ≤ min ((entries.length : ℚ) / 50) 1 :=
    le_min (by positivity) zero_le_one
  have hc1 : min ((entries.length : ℚ) / 50) 1 ≤ 1 := min_le_right _ _
  have hd : (0 : ℚ) ≤ ((reference_date - mostRecent entries : ℤ) : ℚ) := by
    have : (0 : ℤ) ≤ reference_date - mostRecent entries := by omega
    exact_mod_cast this
  have hr0 : 0 ≤ max 0 (1 - ((reference_date - mostRecent entries : ℤ) : ℚ) / 365) :=
    le_max_left _ _
  have hr1 : max 0 (1 - ((reference_date - mostRecent entries : ℤ) : ℚ) / 365) ≤ 1 := by
    apply max_le zero_le_one
    have : 0 ≤ ((reference_date - mostRecent entries : ℤ) : ℚ) / 365 := by positivity
    linarith
  have hv0 : 0 ≤ min ((distinctKnownTypes entries : ℚ) / 4) 1 :=
    le_min (by positivity) zero_le_one
  have hv1 : min ((distinctKnownTypes entries : ℚ) / 4) 1 ≤ 1 := min_le_right _ _
  constructor
  · rw [heq]
    apply roundTo_nonneg
    nlinarith [hc0, hr0, hv0]
  · rw [heq]
    apply roundTo_le_one
    nlinarith [hc1, hr1, hv1, hc0, hr0, hv0]

/-- C2 witness: a single just-dated GPP entry at reference date 19000. -/
theorem C2_confidence_witness :
    ([sampleEntry] : List Entry) ≠ [] ∧ mostRecent [sampleEntry] ≤ 19000 ∧
    0 ≤ calculate_confidence 19000 [sampleEntry] ∧
    calculate_confidence 19000 [sampleEntry] ≤ 1 := by
  refine ⟨by simp, by decide, ?_, ?_⟩
  · exact ((C2_confidence 19000 [sampleEntry] (by simp)).2 (by decide)).1
  · exact ((C2_confidence 19000 [sampleEntry] (by simp)).2 (by decide)).2

/-- C2 counterexample: with reference date 0 and one GPP entry dated 3650
days later, the computed confidence is 3.36, outside [0,1] — the claim's
"always lies in [0,1]" fails on future-dated entries because the code does
not clamp days_old in `_calculate_confidence`. -/
theorem C2_counterexample : 1 < calculate_confidence 0 [futureEntry] := by
  have h1 : mostRecent [futureEntry] = 3650 := rfl
  have h2 : distinctKnownTypes [futureEntry] = 1 := rfl
  have heq : calculate_confidence 0 [futureEntry] = roundTo 4 (336 / 100 : ℚ) := by
    unfold calculate_confidence
    rw [if_neg (List.cons_ne_nil _ _)]
    simp only [h1, h2, List.length_cons, List.length_nil]
    norm_num [min_def, max_def]
  rw [heq, roundTo_eq_self 4 (336 / 100 : ℚ) 33600 (by norm_num)]
  norm_num

/-- Deduplicating a non-empty constant list yields the singleton. -/
theorem dedup_eq_single {α : Type*} [DecidableEq α] (a : α) :
    ∀ l : List α, l ≠ [] → (∀ x ∈ l, x = a) → l.dedup = [a]
  | [], h, _ => absurd rfl h
  | [b], _, hall => by
      have hb : b = a := hall b (by simp)
      subst hb
      simp
  | b :: c :: t, _, hall => by
      have hb : b = a := hall b (by simp)
      have hc : c = a := hall c (by simp)
      have ih : (c :: t).dedup = [a] :=
        dedup_eq_single a (c :: t) (by simp) fun x hx => hall x (List.mem_cons_of_mem _ hx)
      have hmem : b ∈ c :: t := by
        rw [hb, ← hc]
        exact List.mem_cons_self _ _
      rw [List.dedup_cons_of_mem hmem, ih]

/-- C7: the multi-entry rate groups by contest name with falsy-named
entries excluded, defaults to exactly 1 when no named group exists, equals
the mean group size otherwise, and a batch sharing one contest name yields
the batch size. -/
theorem C7_multi_entry_rate (entries : List Entry) (h : entries ≠ []) :
    ((entries.map Entry.contest_name).dedup.filter pyTruthyName = [] →
      calculate_multi_entry_rate entries = 1) ∧
    ((entries.map Entry.contest_name).dedup.filter pyTruthyName ≠ [] →
      calculate_multi_entry_rate entries =
        ((((entries.map Entry.contest_name).dedup.filter pyTruthyName).map
            (fun n => (entries.map Entry.contest_name).count n)).sum : ℚ) /
          (((entries.map Entry.contest_name).dedup.filter pyTruthyName).length : ℚ)) ∧
    (∀ s : String, s ≠ "" → (∀ e ∈ entries, e.contest_name = some s) →
      calculate_multi_entry_rate entries = (entries.length : ℚ)) := by
  refine ⟨fun hk => ?_, fun hk => ?_, fun s hs hall => ?_⟩
  · unfold calculate_multi_entry_rate
    rw [if_neg h, if_pos hk]
  · unfold calculate_multi_entry_rate
    rw [if_neg h, if_neg hk]
  · have hne : entries.map Entry.contest_name ≠ [] := by
      simpa using h
    have hallnames : ∀ x ∈ entries.map Entry.contest_name, x = some s := by
      intro x hx
      rcases List.mem_map.mp hx with ⟨e, he, rfl⟩
      exact hall e he
    have hded : (entries.map Entry.contest_name).dedup = [some s] :=
      dedup_eq_single (some s) _ hne hallnames
    have hfil : ([some s] : List (Option String)).filter pyTruthyName = [some s] := by
      simp [pyTruthyName, hs]
    have hcount : (entries.map Entry.contest_name).count (some s) =
        (entries.map Entry.contest_name).length :=
      List.count_eq_length.mpr fun b hb => (hallnames b hb).symm
    unfold calculate_multi_entry_rate
    rw [if_neg h]
    simp only [hded, hfil]
    rw [if_neg (List.cons_ne_nil _ _)]
    simp [hcount]

/-- C7 witness: two entries sharing the contest name "Main Slate" give a
multi-entry rate equal to the batch size 2. -/
theorem C7_multi_entry_rate_witness :
    ("Main Slate" : String) ≠ "" ∧
    calculate_multi_entry_rate [sampleEntry, sampleEntry] = 2 := by
  refine ⟨by decide, ?_⟩
  have hrate := (C7_multi_entry_rate [sampleEntry, sampleEntry] (by simp)).2.2
    "Main Slate" (by decide) (by decide)
  simpa using hrate

/-! ### Helper lemmas for Shannon-entropy diversity -/

theorem sum_freq_eq_one {α : Type*} [DecidableEq α] (l : List α) (h : l ≠ []) :
    ∑ a ∈ l.toFinset, ((l.count a : ℝ) / (l.length : ℝ)) = 1 := by
  have hN : (0 : ℝ) < (l.length : ℝ) := by
    have := List.length_pos.mpr h
    exact_mod_cast this
  rw [← Finset.sum_div, div_eq_one_iff_eq hN.ne']
  exact_mod_cast List.sum_toFinset_count_eq_length l

theorem dedup_toFinset {α : Type*} [DecidableEq α] (l : List α) :
    l.dedup.toFinset = l.toFinset := by
  ext a
  simp [List.mem_toFinset, List.mem_dedup]

theorem entropy_nonneg {α : Type*} [DecidableEq α] (l : List α) :
    0 ≤ (l.dedup.map (fun a => -(((l.count a : ℝ) / (l.length : ℝ)) *
      Real.logb 2 ((l.count a : ℝ) / (l.length : ℝ))))).sum := by
  apply List.sum_nonneg
  intro x hx
  rcases List.mem_map.mp hx with ⟨a, ha, rfl⟩
  have hmem : a ∈ l := List.mem_dedup.mp ha
  have hN : (0 : ℝ) < (l.length : ℝ) := by
    have := List.length_pos.mpr (List.ne_nil_of_mem hmem)
    exact_mod_cast this
  have hp0 : (0 : ℝ) ≤ (l.count a : ℝ) / (l.length : ℝ) := by positivity
  have hp1 : (l.count a : ℝ) / (l.length : ℝ) ≤ 1 := by
    rw [div_le_one hN]
    exact_mod_cast List.count_le_length a l
  have hlog := Real.logb_nonpos (by norm_num : (1 : ℝ) < 2) hp0 hp1
  exact neg_nonneg.mpr (mul_nonpos_of_nonneg_of_nonpos hp0 hlog)

theorem entropy_le_logb {α : Type*} [DecidableEq α] (l : List α)
    (h2 : 2 ≤ l.dedup.length) :
    (l.dedup.map (fun a => -(((l.count a : ℝ) / (l.length : ℝ)) *
      Real.logb 2 ((l.count a : ℝ) / (l.length : ℝ))))).sum ≤
    Real.logb 2 (l.dedup.length : ℝ) := by
  classical
  have hne : l ≠ [] := by
    intro h0
    subst h0
    simp [List.dedup_nil] at h2
  have hN : (0 : ℝ) < (l.length : ℝ) := by
    have := List.length_pos.mpr hne
    exact_mod_cast this
  have hsum : (l.dedup.map (fun a => -(((l.count a : ℝ) / (l.length : ℝ)) *
      Real.logb 2 ((l.count a : ℝ) / (l.length : ℝ))))).sum =
      ∑ a ∈ l.toFinset, -(((l.count a : ℝ) / (l.length : ℝ)) *
        Real.logb 2 ((l.count a : ℝ) / (l.length : ℝ))) := by
    rw [← List.sum_toFinset _ l.nodup_dedup, dedup_toFinset]
  rw [hsum]
  have hppos : ∀ a ∈ l.toFinset, (0 : ℝ) < (l.count a : ℝ) / (l.length : ℝ) := by
    intro a ha
    have hc : 0 < l.count a := List.count_pos_iff.mpr (List.mem_toFinset.mp ha)
    have hcr : (0 : ℝ) < (l.count a : ℝ) := by exact_mod_cast hc
    positivity
  have hterm : ∀ a ∈ l.toFinset, -(((l.count a : ℝ) / (l.length : ℝ)) *
      Real.logb 2 ((l.count a : ℝ) / (l.length : ℝ))) =
      (((l.count a : ℝ) / (l.length : ℝ)) *
        Real.log (((l.count a : ℝ) / (l.length : ℝ))⁻¹)) / Real.log 2 := by
    intro a _
    rw [Real.logb, Real.log_inv]
    ring
  rw [Finset.sum_congr rfl hterm, ← Finset.sum_div]
  have hcon : ConcaveOn ℝ (Set.Ioi (0 : ℝ)) Real.log := strictConcaveOn_log_Ioi.concaveOn
  have hjensen := hcon.le_map_sum (fun a ha => (hppos a ha).le) (sum_freq_eq_one l hne)
    (fun a ha => Set.mem_Ioi.mpr (inv_pos.mpr (hppos a ha)))
  simp only [smul_eq_mul] at hjensen
  have hinner : ∑ a ∈ l.toFinset,
      ((l.count a : ℝ) / (l.length : ℝ)) * (((l.count a : ℝ) / (l.length : ℝ)))⁻¹ =
      (l.dedup.length : ℝ) := by
    rw [Finset.sum_congr rfl fun a ha => mul_inv_cancel₀ (hppos a ha).ne']
    rw [Finset.sum_const, nsmul_eq_mul, mul_one, List.card_toFinset]
  rw [hinner] at hjensen
  have hlog2 : (0 : ℝ) < Real.log 2 := Real.log_pos (by norm_num)
  rw [Real.logb]
  exact (div_le_div_iff_of_pos_right hlog2).mpr hjensen

/-- C6: for a non-empty batch, sport diversity is exactly 0 with a single
distinct sport; with at least two distinct sports it is the Shannon
entropy of the sport frequencies divided by log2 of the number of distinct
sports, rounded to 4 decimals; and it always lies in [0,1]. -/
theorem C6_sport_diversity (entries : List Entry) (h : entries ≠ []) :
    ((entries.map Entry.sport).dedup.length = 1 → calculate_sport_diversity entries = 0) ∧
    (2 ≤ (entries.map Entry.sport).dedup.length →
      calculate_sport_diversity entries =
        roundTo 4 (((entries.map Entry.sport).dedup.map (fun s =>
          -((((entries.map Entry.sport).count s : ℝ) /
              ((entries.map Entry.sport).length : ℝ)) *
            Real.logb 2 (((entries.map Entry.sport).count s : ℝ) /
              ((entries.map Entry.sport).length : ℝ))))).sum /
          Real.logb 2 ((entries.map Entry.sport).dedup.length : ℝ))) ∧
    0 ≤ calculate_sport_diversity entries ∧ calculate_sport_diversity entries ≤ 1 := by
  have hguard : (entries.map Entry.sport).dedup.map (fun s =>
      if 0 < (entries.map Entry.sport).count s then
        -((((entries.map Entry.sport).count s : ℝ) /
            ((entries.map Entry.sport).length : ℝ)) *
          Real.logb 2 (((entries.map Entry.sport).count s : ℝ) /
            ((entries.map Entry.sport).length : ℝ)))
      else 0) =
      (entries.map Entry.sport).dedup.map (fun s =>
        -((((entries.map Entry.sport).count s : ℝ) /
            ((entries.map Entry.sport).length : ℝ)) *
          Real.logb 2 (((entries.map Entry.sport).count s : ℝ) /
            ((entries.map Entry.sport).length : ℝ)))) :=
    List.map_congr_left fun s hs =>
      if_pos (List.count_pos_iff.mpr (List.mem_dedup.mp hs))
  have heq0 : (entries.map Entry.sport).dedup.length ≤ 1 →
      calculate_sport_diversity entries = 0 := by
    intro h1
    unfold calculate_sport_diversity
    rw [if_neg h]
    simp only [if_pos h1]
  have heq2 : 2 ≤ (entries.map Entry.sport).dedup.length →
      calculate_sport_diversity entries =
        roundTo 4 (((entries.map Entry.sport).dedup.map (fun s =>
          -((((entries.map Entry.sport).count s : ℝ) /
              ((entries.map Entry.sport).length : ℝ)) *
            Real.logb 2 (((entries.map Entry.sport).count s : ℝ) /
              ((entries.map Entry.sport).length : ℝ))))).sum /
          Real.logb 2 ((entries.map Entry.sport).dedup.length : ℝ)) := by
    intro h2
    have hnle : ¬ ((entries.map Entry.sport).dedup.length ≤ 1) := by omega
    have hpos : 0 < Real.logb 2 ((entries.map Entry.sport).dedup.length : ℝ) := by
      apply Real.logb_pos (by norm_num)
      exact_mod_cast h2
    unfold calculate_sport_diversity
    rw [if_neg h]
    simp only [if_neg hnle, if_pos hpos, hguard]
  refine ⟨fun h1 => heq0 (le_of_eq h1), heq2, ?_⟩
  by_cases hlen : (entries.map Entry.sport).dedup.length ≤ 1
  · rw [heq0 hlen]
    norm_num
  · have h2 : 2 ≤ (entries.map Entry.sport).dedup.length := by omega
    have hpos : 0 < Real.logb 2 ((entries.map Entry.sport).dedup.length : ℝ) := by
      apply Real.logb_pos (by norm_num)
      exact_mod_cast h2
    rw [heq2 h2]
    constructor
    · exact roundTo_nonneg 4 (div_nonneg (entropy_nonneg _) hpos.le)
    · exact roundTo_le_one 4 ((div_le_one hpos).mpr (entropy_le_logb _ h2))

/-- C6 witness: a single-entry batch has one distinct sport and diversity
exactly 0, inside [0,1]. -/
theorem C6_sport_diversity_witness :
    calculate_sport_diversity [sampleEntry] = 0 ∧
    0 ≤ calculate_sport_diversity [sampleEntry] ∧
    calculate_sport_diversity [sampleEntry] ≤ 1 := by
  have hthm := C6_sport_diversity [sampleEntry] (by simp)
  exact ⟨hthm.1 rfl, hthm.2.2⟩

end DFS
